import Mathlib

/-!
Shallow embedding of the goal-adjustment and macro-accounting engine of the
nutrition-tracking app: the Goal Adjuster (`adjustedGoals` in App.tsx), the
NutrientTotals Aggregator (Dashboard.tsx), the Remaining-Macro Calculator and
Next-Meal Selector (`generateMealCompletion` in the Gemini service module),
the Weekly Log Builder (`weeklyHistory` in App.tsx) and the entry-save handler
(`handleSaveEntry` in App.tsx).

JavaScript numbers are modelled as rationals; `Math.round` is
`fun x => Int.floor (x + 1/2)`; `Math.random()`-driven variance is a
parameter constrained to the interval it is drawn from.  Calendar dates are
modelled as day numbers (days since 1970-01-01, which was a Thursday), with
`getDay` returning the JavaScript weekday convention 0 = Sunday .. 6 = Saturday.
-/

/-- `MealType` from types.ts. -/
inductive MealType : Type where
  | Breakfast
  | Lunch
  | Dinner
  | Snack
deriving DecidableEq, Repr

/-- `FoodEntry` from types.ts: identity, name, meal slot, timestamp, tags,
inflammation flags and the seven nutrient fields (JS numbers as rationals). -/
structure FoodEntry : Type where
  id : String
  name : String
  mealType : MealType
  timestamp : Int
  tags : List String
  inflammationFlags : List String
  calories : Rat
  protein : Rat
  carbs : Rat
  fat : Rat
  fiber : Rat
  salt : Rat
  potassium : Rat
deriving DecidableEq, Repr

/-- Goal type from types.ts (informational only). -/
inductive GoalType : Type where
  | Recomposition
  | Cut
  | Bulk
deriving DecidableEq, Repr

/-- `UserGoals` from types.ts (the version with water and micro targets,
matching the runtime object built in App.tsx). -/
structure UserGoals : Type where
  type : GoalType
  calories : Rat
  protein : Rat
  carbs : Rat
  fat : Rat
  isTrainingDay : Bool
  steps : Rat
  water : Rat
  fiber : Rat
  salt : Rat
  potassium : Rat
deriving DecidableEq, Repr

/-- The Goal Adjuster, `adjustedGoals` in App.tsx: copy the goals, add 300
kcal and 50 g carbs on a training day, and 30 g carbs when steps exceed
10000 (strictly). -/
def adjustedGoals (goals : UserGoals) : UserGoals :=
  let g :=
    if goals.isTrainingDay then
      { goals with calories := goals.calories + 300, carbs := goals.carbs + 50 }
    else goals
  if g.steps > 10000 then { g with carbs := g.carbs + 30 } else g

/-- C1: the adjusted goals equal the base with the additive modifiers:
+300 kcal / +50 g carbs on a training day, a further +30 g carbs when
steps > 10000 (cumulative), and no step bonus at steps = 10000 exactly. -/
theorem adjustedGoals_additive_modifiers (g : UserGoals) :
    adjustedGoals g =
      { g with
        calories := g.calories + (if g.isTrainingDay then 300 else 0),
        carbs := g.carbs + (if g.isTrainingDay then 50 else 0) +
          (if g.steps > 10000 then 30 else 0) } ∧
    (g.steps = 10000 →
      (adjustedGoals g).carbs = g.carbs + (if g.isTrainingDay then 50 else 0)) := by
  constructor
  · rcases g with ⟨t, cal, p, cb, f, train, st, w, fi, sa, po⟩
    cases train <;> simp [adjustedGoals] <;> split_ifs <;> simp
  · intro hst
    rcases g with ⟨t, cal, p, cb, f, train, st, w, fi, sa, po⟩
    simp only at hst
    subst hst
    cases train <;> simp [adjustedGoals]

/-- Witness for C1 at a concrete goal profile with steps = 10000. -/
theorem adjustedGoals_additive_modifiers_witness :
    (adjustedGoals
        ⟨GoalType.Recomposition, 2200, 180, 200, 70, true, 10000, 3000, 30, 2300, 3500⟩ =
      ⟨GoalType.Recomposition, 2500, 180, 250, 70, true, 10000, 3000, 30, 2300, 3500⟩) ∧
    (adjustedGoals
        ⟨GoalType.Recomposition, 2200, 180, 200, 70, true, 10000, 3000, 30, 2300, 3500⟩).carbs
      = 200 + 50 := by
  have h := adjustedGoals_additive_modifiers
    ⟨GoalType.Recomposition, 2200, 180, 200, 70, true, 10000, 3000, 30, 2300, 3500⟩
  refine ⟨?_, ?_⟩
  · rw [h.1]
    norm_num
  · have h2 := h.2 rfl
    simpa using h2

/-- `NutrientProfile` (spec §3): the seven nutrient quantities, used both as
an aggregate of entries and as a goal payload. -/
structure NutrientProfile : Type where
  calories : Rat
  protein : Rat
  carbs : Rat
  fat : Rat
  fiber : Rat
  salt : Rat
  potassium : Rat
deriving DecidableEq, Repr

/-- Elementwise sum of two nutrient profiles. -/
def NutrientProfile.add (a b : NutrientProfile) : NutrientProfile :=
  ⟨a.calories + b.calories, a.protein + b.protein, a.carbs + b.carbs,
    a.fat + b.fat, a.fiber + b.fiber, a.salt + b.salt, a.potassium + b.potassium⟩

/-- The all-zero nutrient profile. -/
def NutrientProfile.zero : NutrientProfile := ⟨0, 0, 0, 0, 0, 0, 0⟩

/-- The NutrientTotals Aggregator, the seven `entries.reduce((acc, e) =>
acc + e.<field>, 0)` folds at the top of the Dashboard component. -/
def aggregate (entries : List FoodEntry) : NutrientProfile :=
  { calories := entries.foldl (fun acc e => acc + e.calories) 0
    protein := entries.foldl (fun acc e => acc + e.protein) 0
    carbs := entries.foldl (fun acc e => acc + e.carbs) 0
    fat := entries.foldl (fun acc e => acc + e.fat) 0
    fiber := entries.foldl (fun acc e => acc + e.fiber) 0
    salt := entries.foldl (fun acc e => acc + e.salt) 0
    potassium := entries.foldl (fun acc e => acc + e.potassium) 0 }

/-- `totalCals` in `generateMealCompletion`. -/
def totalCals (dailyLogs : List FoodEntry) : Rat :=
  dailyLogs.foldl (fun acc e => acc + e.calories) 0

/-- `totalProtein` in `generateMealCompletion`. -/
def totalProtein (dailyLogs : List FoodEntry) : Rat :=
  dailyLogs.foldl (fun acc e => acc + e.protein) 0

/-- `totalCarbs` in `generateMealCompletion`. -/
def totalCarbs (dailyLogs : List FoodEntry) : Rat :=
  dailyLogs.foldl (fun acc e => acc + e.carbs) 0

/-- `totalFat` in `generateMealCompletion`. -/
def totalFat (dailyLogs : List FoodEntry) : Rat :=
  dailyLogs.foldl (fun acc e => acc + e.fat) 0

/-- The four-field remaining-macro record built in `generateMealCompletion`. -/
structure MacroProfile : Type where
  calories : Rat
  protein : Rat
  carbs : Rat
  fat : Rat
deriving DecidableEq, Repr

/-- The Remaining-Macro Calculator: the `remaining` object of
`generateMealCompletion`, `Math.max(0, goal - total)` per field. -/
def remainingMacros (dailyLogs : List FoodEntry) (goals : UserGoals) : MacroProfile :=
  { calories := max 0 (goals.calories - totalCals dailyLogs)
    protein := max 0 (goals.protein - totalProtein dailyLogs)
    carbs := max 0 (goals.carbs - totalCarbs dailyLogs)
    fat := max 0 (goals.fat - totalFat dailyLogs) }

/-- The Next-Meal Selector of `generateMealCompletion`: `let nextMeal =
Snack; if (!hasBreakfast && time < 11) ... else if (!hasLunch && time < 15)
... else if (!hasDinner) Dinner`. -/
def nextMeal (dailyLogs : List FoodEntry) (time : Nat) : MealType :=
  let hasBreakfast := dailyLogs.any fun e => e.mealType == MealType.Breakfast
  let hasLunch := dailyLogs.any fun e => e.mealType == MealType.Lunch
  let hasDinner := dailyLogs.any fun e => e.mealType == MealType.Dinner
  if !hasBreakfast && decide (time < 11) then MealType.Breakfast
  else if !hasLunch && decide (time < 15) then MealType.Lunch
  else if !hasDinner then MealType.Dinner
  else MealType.Snack

/-- A fold that adds a projection of each entry equals the initial value plus
the sum of the projected list. -/
theorem foldl_add_proj (f : FoodEntry → Rat) (l : List FoodEntry) (a : Rat) :
    l.foldl (fun acc e => acc + f e) a = a + (l.map f).sum := by
  induction l generalizing a with
  | nil => simp
  | cons e t ih =>
      rw [List.foldl_cons, ih]
      simp
      ring

/-- Splitting a projected sum along a Boolean filter and its complement. -/
theorem sum_map_filter_split (f : FoodEntry → Rat) (p : FoodEntry → Bool)
    (l : List FoodEntry) :
    ((l.filter p).map f).sum + ((l.filter fun e => !(p e)).map f).sum
      = (l.map f).sum := by
  induction l with
  | nil => simp
  | cons e t ih =>
      cases hp : p e <;> simp [List.filter_cons, hp] <;> linarith [ih]

/-- C2: each remaining-macro field is `max 0 (goal - total)`; hence it is
nonnegative, zero when the total meets or exceeds the goal, and exactly the
shortfall otherwise. -/
theorem remainingMacros_clamped_shortfall (logs : List FoodEntry) (goals : UserGoals) :
    (remainingMacros logs goals =
      ⟨max 0 (goals.calories - totalCals logs), max 0 (goals.protein - totalProtein logs),
        max 0 (goals.carbs - totalCarbs logs), max 0 (goals.fat - totalFat logs)⟩) ∧
    (0 ≤ (remainingMacros logs goals).calories ∧ 0 ≤ (remainingMacros logs goals).protein ∧
      0 ≤ (remainingMacros logs goals).carbs ∧ 0 ≤ (remainingMacros logs goals).fat) ∧
    ((goals.calories ≤ totalCals logs → (remainingMacros logs goals).calories = 0) ∧
      (goals.protein ≤ totalProtein logs → (remainingMacros logs goals).protein = 0) ∧
      (goals.carbs ≤ totalCarbs logs → (remainingMacros logs goals).carbs = 0) ∧
      (goals.fat ≤ totalFat logs → (remainingMacros logs goals).fat = 0)) ∧
    ((totalCals logs < goals.calories →
        (remainingMacros logs goals).calories = goals.calories - totalCals logs) ∧
      (totalProtein logs < goals.protein →
        (remainingMacros logs goals).protein = goals.protein - totalProtein logs) ∧
      (totalCarbs logs < goals.carbs →
        (remainingMacros logs goals).carbs = goals.carbs - totalCarbs logs) ∧
      (totalFat logs < goals.fat →
        (remainingMacros logs goals).fat = goals.fat - totalFat logs)) := by
  refine ⟨rfl, ⟨le_max_left _ _, le_max_left _ _, le_max_left _ _, le_max_left _ _⟩,
    ⟨?_, ?_, ?_, ?_⟩, ⟨?_, ?_, ?_, ?_⟩⟩ <;> intro h <;>
    simp only [remainingMacros] <;>
    [exact max_eq_left (by linarith); exact max_eq_left (by linarith);
      exact max_eq_left (by linarith); exact max_eq_left (by linarith);
      exact max_eq_right (by linarith); exact max_eq_right (by linarith);
      exact max_eq_right (by linarith); exact max_eq_right (by linarith)]

/-- A concrete food entry used by the witnesses. -/
def sampleEntry (nm : String) (slot : MealType) (c p cb f : Rat) : FoodEntry :=
  ⟨nm, nm, slot, 0, [], [], c, p, cb, f, 0, 0, 0⟩

/-- Witness for C2 at a concrete log (calories and protein over target,
carbs and fat under target) and concrete goals. -/
theorem remainingMacros_clamped_shortfall_witness :
    (remainingMacros [sampleEntry "w2" MealType.Lunch 2500 200 150 40]
        ⟨GoalType.Cut, 2200, 180, 200, 70, false, 0, 0, 0, 0, 0⟩).calories = 0 ∧
    (remainingMacros [sampleEntry "w2" MealType.Lunch 2500 200 150 40]
        ⟨GoalType.Cut, 2200, 180, 200, 70, false, 0, 0, 0, 0, 0⟩).protein = 0 ∧
    (remainingMacros [sampleEntry "w2" MealType.Lunch 2500 200 150 40]
        ⟨GoalType.Cut, 2200, 180, 200, 70, false, 0, 0, 0, 0, 0⟩).carbs = 50 ∧
    (remainingMacros [sampleEntry "w2" MealType.Lunch 2500 200 150 40]
        ⟨GoalType.Cut, 2200, 180, 200, 70, false, 0, 0, 0, 0, 0⟩).fat = 30 := by
  have h := remainingMacros_clamped_shortfall
    [sampleEntry "w2" MealType.Lunch 2500 200 150 40]
    ⟨GoalType.Cut, 2200, 180, 200, 70, false, 0, 0, 0, 0, 0⟩
  refine ⟨h.2.2.1.1 (by norm_num [totalCals, sampleEntry]),
    h.2.2.1.2.1 (by norm_num [totalProtein, sampleEntry]), ?_, ?_⟩
  · have := h.2.2.2.2.2.1 (by norm_num [totalCarbs, sampleEntry])
    rw [this]
    norm_num [totalCarbs, sampleEntry]
  · have := h.2.2.2.2.2.2 (by norm_num [totalFat, sampleEntry])
    rw [this]
    norm_num [totalFat, sampleEntry]

/-- C3 counterexample: with no entries and hour 3 the selector returns
Breakfast (rule 1 fires: no Breakfast entry and 3 < 11), not Dinner. -/
theorem nextMeal_empty_hour3_not_dinner :
    nextMeal [] 3 = MealType.Breakfast ∧ nextMeal [] 3 ≠ MealType.Dinner := by
  decide

/-- C3 amended: for the empty entry sequence and hour 3 the selector returns
Breakfast, because rule 1 (no Breakfast entry and hour < 11) matches first;
in particular it is not the Snack fallback. -/
theorem nextMeal_empty_hour3_breakfast :
    nextMeal [] 3 = MealType.Breakfast ∧ nextMeal [] 3 ≠ MealType.Snack := by
  decide

/-- The `some`-style slot test of the source equals the existence of an entry
with that slot. -/
theorem any_slot_iff (entries : List FoodEntry) (s : MealType) :
    (entries.any fun e => e.mealType == s) = true ↔
      ∃ e ∈ entries, e.mealType = s := by
  simp [List.any_eq_true]

/-- C4: the selector evaluates its four rules in fixed priority order and
returns the first match; with Breakfast present, Lunch absent and hour 9 it
returns Lunch, and with all three main slots present it returns Snack. -/
theorem nextMeal_priority_order (entries : List FoodEntry) (time : Nat) :
    (nextMeal entries time =
      if (¬ ∃ e ∈ entries, e.mealType = MealType.Breakfast) ∧ time < 11 then
        MealType.Breakfast
      else if (¬ ∃ e ∈ entries, e.mealType = MealType.Lunch) ∧ time < 15 then
        MealType.Lunch
      else if ¬ ∃ e ∈ entries, e.mealType = MealType.Dinner then MealType.Dinner
      else MealType.Snack) ∧
    ((∃ e ∈ entries, e.mealType = MealType.Breakfast) →
      (¬ ∃ e ∈ entries, e.mealType = MealType.Lunch) →
      nextMeal entries 9 = MealType.Lunch) ∧
    ((∃ e ∈ entries, e.mealType = MealType.Breakfast) →
      (∃ e ∈ entries, e.mealType = MealType.Lunch) →
      (∃ e ∈ entries, e.mealType = MealType.Dinner) →
      nextMeal entries time = MealType.Snack) := by
  have hmain : ∀ t : Nat, nextMeal entries t =
      if (¬ ∃ e ∈ entries, e.mealType = MealType.Breakfast) ∧ t < 11 then
        MealType.Breakfast
      else if (¬ ∃ e ∈ entries, e.mealType = MealType.Lunch) ∧ t < 15 then
        MealType.Lunch
      else if ¬ ∃ e ∈ entries, e.mealType = MealType.Dinner then MealType.Dinner
      else MealType.Snack := by
    intro t
    by_cases hb : ∃ e ∈ entries, e.mealType = MealType.Breakfast <;>
      by_cases hl : ∃ e ∈ entries, e.mealType = MealType.Lunch <;>
      by_cases hd : ∃ e ∈ entries, e.mealType = MealType.Dinner <;>
      by_cases h11 : t < 11 <;> by_cases h15 : t < 15 <;>
      simp [nextMeal, Bool.and_eq_true, Bool.not_eq_true', Bool.eq_false_iff,
        Ne, any_slot_iff, hb, hl, hd, h11, h15, -not_exists]
  refine ⟨hmain time, ?_, ?_⟩
  · intro hb hl
    rw [hmain 9]
    simp [hb, hl]
  · intro hb hl hd
    rw [hmain time]
    simp [hb, hl, hd]

/-- Witness for C4: a log with Breakfast only gives Lunch at hour 9, and a
log with Breakfast, Lunch and Dinner gives Snack. -/
theorem nextMeal_priority_order_witness :
    nextMeal [sampleEntry "b" MealType.Breakfast 1 1 1 1] 9 = MealType.Lunch ∧
    nextMeal [sampleEntry "b" MealType.Breakfast 1 1 1 1,
      sampleEntry "l" MealType.Lunch 1 1 1 1,
      sampleEntry "d" MealType.Dinner 1 1 1 1] 9 = MealType.Snack := by
  constructor
  · exact (nextMeal_priority_order [sampleEntry "b" MealType.Breakfast 1 1 1 1] 9).2.1
      (by exact ⟨sampleEntry "b" MealType.Breakfast 1 1 1 1, by simp, rfl⟩)
      (by decide)
  · exact (nextMeal_priority_order [sampleEntry "b" MealType.Breakfast 1 1 1 1,
        sampleEntry "l" MealType.Lunch 1 1 1 1,
        sampleEntry "d" MealType.Dinner 1 1 1 1] 9).2.2
      (by exact ⟨sampleEntry "b" MealType.Breakfast 1 1 1 1, by simp, rfl⟩)
      (by exact ⟨sampleEntry "l" MealType.Lunch 1 1 1 1, by simp, rfl⟩)
      (by exact ⟨sampleEntry "d" MealType.Dinner 1 1 1 1, by simp, rfl⟩)

/-- C5: the Aggregator is zero on the empty log, splits as the elementwise
sum over a slot filter and its complement, and is invariant under
permutation of the entries. -/
theorem aggregate_algebraic_laws :
    aggregate [] = NutrientProfile.zero ∧
    (∀ (entries : List FoodEntry) (slot : MealType),
      aggregate entries =
        NutrientProfile.add (aggregate (entries.filter fun e => e.mealType == slot))
          (aggregate (entries.filter fun e => !(e.mealType == slot)))) ∧
    (∀ l₁ l₂ : List FoodEntry, List.Perm l₁ l₂ → aggregate l₁ = aggregate l₂) := by
  refine ⟨rfl, ?_, ?_⟩
  · intro entries slot
    simp only [aggregate, NutrientProfile.add, foldl_add_proj, zero_add,
      NutrientProfile.mk.injEq]
    refine ⟨?_, ?_, ?_, ?_, ?_, ?_, ?_⟩ <;>
      exact (sum_map_filter_split _ _ entries).symm
  · intro l₁ l₂ hperm
    simp only [aggregate, foldl_add_proj, zero_add, NutrientProfile.mk.injEq]
    refine ⟨?_, ?_, ?_, ?_, ?_, ?_, ?_⟩ <;>
      exact (hperm.map _).sum_eq

/-- Witness for C5: aggregation of a concrete two-entry log is unchanged by
swapping the two entries. -/
theorem aggregate_algebraic_laws_witness :
    aggregate [sampleEntry "a" MealType.Breakfast 300 20 30 10,
        sampleEntry "b" MealType.Lunch 600 40 70 20] =
      aggregate [sampleEntry "b" MealType.Lunch 600 40 70 20,
        sampleEntry "a" MealType.Breakfast 300 20 30 10] := by
  exact aggregate_algebraic_laws.2.2
    [sampleEntry "a" MealType.Breakfast 300 20 30 10,
      sampleEntry "b" MealType.Lunch 600 40 70 20]
    [sampleEntry "b" MealType.Lunch 600 40 70 20,
      sampleEntry "a" MealType.Breakfast 300 20 30 10]
    (List.Perm.swap _ _ _)

/-- C8: with base goals 2200 kcal / 180 P / 200 C / 70 F, a training day and
11000 steps, the adjusted goals are 2500 kcal / 180 P / 280 C / 70 F, and for
any log whose four totals are 1200 kcal / 90 P / 150 C / 40 F the remaining
macros against those adjusted goals are 1300 kcal / 90 P / 130 C / 30 F. -/
theorem end_to_end_training_day (g : UserGoals) (logs : List FoodEntry)
    (hcal : g.calories = 2200) (hpro : g.protein = 180) (hcarb : g.carbs = 200)
    (hfat : g.fat = 70) (htrain : g.isTrainingDay = true) (hsteps : g.steps = 11000)
    (tcal : totalCals logs = 1200) (tpro : totalProtein logs = 90)
    (tcarb : totalCarbs logs = 150) (tfat : totalFat logs = 40) :
    (adjustedGoals g).calories = 2500 ∧ (adjustedGoals g).protein = 180 ∧
    (adjustedGoals g).carbs = 280 ∧ (adjustedGoals g).fat = 70 ∧
    remainingMacros logs (adjustedGoals g) = ⟨1300, 90, 130, 30⟩ := by
  have hadj : adjustedGoals g =
      { g with calories := g.calories + 300, carbs := g.carbs + 50 + 30 } := by
    rw [(adjustedGoals_additive_modifiers g).1, htrain, hsteps]
    norm_num
  rw [hadj]
  simp only [remainingMacros, hcal, hpro, hcarb, hfat, tcal, tpro, tcarb, tfat]
  norm_num

/-- Witness for C8 at a concrete goal profile and a concrete two-entry log
with the stated totals. -/
theorem end_to_end_training_day_witness :
    (adjustedGoals ⟨GoalType.Recomposition, 2200, 180, 200, 70, true, 11000,
        3000, 30, 2300, 3500⟩).calories = 2500 ∧
    remainingMacros
        [sampleEntry "m1" MealType.Breakfast 500 40 60 15,
          sampleEntry "m2" MealType.Lunch 700 50 90 25]
        (adjustedGoals ⟨GoalType.Recomposition, 2200, 180, 200, 70, true, 11000,
          3000, 30, 2300, 3500⟩) = ⟨1300, 90, 130, 30⟩ := by
  have h := end_to_end_training_day
    ⟨GoalType.Recomposition, 2200, 180, 200, 70, true, 11000, 3000, 30, 2300, 3500⟩
    [sampleEntry "m1" MealType.Breakfast 500 40 60 15,
      sampleEntry "m2" MealType.Lunch 700 50 90 25]
    rfl rfl rfl rfl rfl rfl
    (by norm_num [totalCals, sampleEntry])
    (by norm_num [totalProtein, sampleEntry])
    (by norm_num [totalCarbs, sampleEntry])
    (by norm_num [totalFat, sampleEntry])
  exact ⟨h.1, h.2.2.2.2⟩

/-- C9: the Goal Adjuster is a pure function of its input: it is
deterministic, every field other than calories and carbs is returned
unchanged, and with no training day and steps at most 10000 the result is the
base profile itself (so the base is never mutated). -/
theorem adjustedGoals_pure_frame (g : UserGoals) :
    (∀ g2 : UserGoals, g2 = g → adjustedGoals g2 = adjustedGoals g) ∧
    (adjustedGoals g).type = g.type ∧
    (adjustedGoals g).protein = g.protein ∧
    (adjustedGoals g).fat = g.fat ∧
    (adjustedGoals g).isTrainingDay = g.isTrainingDay ∧
    (adjustedGoals g).steps = g.steps ∧
    (adjustedGoals g).water = g.water ∧
    (adjustedGoals g).fiber = g.fiber ∧
    (adjustedGoals g).salt = g.salt ∧
    (adjustedGoals g).potassium = g.potassium ∧
    (g.isTrainingDay = false → g.steps ≤ 10000 → adjustedGoals g = g) := by
  have hmain := (adjustedGoals_additive_modifiers g).1
  refine ⟨fun g2 h2 => by rw [h2], ?_⟩
  rw [hmain]
  refine ⟨rfl, rfl, rfl, rfl, rfl, rfl, rfl, rfl, rfl, ?_⟩
  intro htrain hsteps
  rcases g with ⟨t, cal, p, cb, f, train, st, w, fi, sa, po⟩
  simp only at htrain hsteps
  subst htrain
  simp [not_lt.mpr hsteps]

/-- Witness for C9 at the app's initial goal profile (rest day, 8000
steps): the adjusted goals equal the base exactly. -/
theorem adjustedGoals_pure_frame_witness :
    adjustedGoals ⟨GoalType.Recomposition, 2200, 180, 200, 70, false, 8000,
        3000, 30, 2300, 3500⟩ =
      ⟨GoalType.Recomposition, 2200, 180, 200, 70, false, 8000, 3000, 30, 2300, 3500⟩ := by
  exact (adjustedGoals_pure_frame
    ⟨GoalType.Recomposition, 2200, 180, 200, 70, false, 8000, 3000, 30, 2300, 3500⟩
    ).2.2.2.2.2.2.2.2.2.2 rfl (by norm_num)

/-- JavaScript `Math.round`: floor of x + 1/2 (ties round toward positive
infinity). -/
def jsRound (x : Rat) : Int := (x + 1/2).floor

/-- `jsRound` agrees with the floor-ring floor of x + 1/2. -/
theorem jsRound_eq_intFloor (x : Rat) : jsRound x = ⌊x + 1/2⌋ := by
  unfold jsRound
  rw [Rat.floor_def' (x + 1/2), Rat.floor_def]

/-- JavaScript `Date.getDay` on a day number (days since 1970-01-01, which
was a Thursday): 0 = Sunday .. 6 = Saturday. -/
def getDay (d : Int) : Int := (d + 4) % 7

/-- `DayLog` from types.ts, with dates as day numbers. -/
structure DayLog : Type where
  date : Int
  dayName : String
  entries : List FoodEntry
deriving DecidableEq, Repr

instance : Inhabited DayLog := ⟨⟨0, "", []⟩⟩

/-- The `dayNames` array of `weeklyHistory`. -/
def dayNames : List String := ["Mon", "Tue", "Wed", "Thu", "Fri", "Sat", "Sun"]

/-- The synthetic past-day entry pushed by `weeklyHistory` for day index `i`
and day number `d`, with variance draw `v` standing for
`(Math.random() * 0.4) - 0.2`. -/
def mockEntry (goals : UserGoals) (v : Rat) (i : Nat) (d : Int) : FoodEntry :=
  let dailyCals : Int := jsRound (goals.calories * (1 + v))
  let p : Int := jsRound ((dailyCals : Rat) * (3/10) / 4)
  let c : Int := jsRound ((dailyCals : Rat) * (4/10) / 4)
  let f : Int := jsRound ((dailyCals : Rat) * (3/10) / 9)
  { id := "mock-" ++ toString i, name := "Mock Entry", mealType := MealType.Snack,
    timestamp := d, tags := [], inflammationFlags := [],
    calories := (dailyCals : Rat), protein := (p : Rat), carbs := (c : Rat),
    fat := (f : Rat), fiber := 20, salt := 2000, potassium := 3000 }

/-- `distanceToMonday` of `weeklyHistory`: 6 when the current weekday is
Sunday (0), otherwise weekday minus 1. -/
def distanceToMonday (today : Int) : Int :=
  if getDay today = 0 then 6 else getDay today - 1

/-- One loop iteration of `weeklyHistory`: the day log pushed for index `i`. -/
def weeklyDay (today : Int) (entries : List FoodEntry) (goals : UserGoals)
    (vf : Nat → Rat) (i : Nat) : DayLog :=
  let monday := today - distanceToMonday today
  let d := monday + i
  if today < d then ⟨d, dayNames.getD i "", []⟩
  else if d = today then ⟨d, dayNames.getD i "", entries⟩
  else ⟨d, dayNames.getD i "", [mockEntry goals (vf i) i d]⟩

/-- The Weekly Log Builder, `weeklyHistory` in App.tsx: the seven-iteration
loop over the week containing `today`, Monday first. -/
def weeklyHistory (today : Int) (entries : List FoodEntry) (goals : UserGoals)
    (vf : Nat → Rat) : List DayLog :=
  (List.range 7).map (weeklyDay today entries goals vf)

/-- Reading the built week at an in-range index yields that loop iteration. -/
theorem weeklyHistory_getD (today : Int) (entries : List FoodEntry)
    (goals : UserGoals) (vf : Nat → Rat) (i : Nat) (h : i < 7) :
    (weeklyHistory today entries goals vf).getD i default
      = weeklyDay today entries goals vf i := by
  have hl : i < (weeklyHistory today entries goals vf).length := by
    simpa [weeklyHistory] using h
  rw [List.getD_eq_getElem _ _ hl]
  simp [weeklyHistory]

/-- The distance back to Monday lies in [0, 6]. -/
theorem distanceToMonday_bounds (today : Int) :
    0 ≤ distanceToMonday today ∧ distanceToMonday today < 7 := by
  have h0 : 0 ≤ getDay today := Int.emod_nonneg _ (by norm_num)
  have h7 : getDay today < 7 := Int.emod_lt_of_pos _ (by norm_num)
  unfold distanceToMonday
  split_ifs with h <;> omega

/-- C6: the Weekly Log Builder returns 7 summaries whose dates run from the
week's Monday (today minus 6 when the weekday is Sunday, today minus
weekday − 1 otherwise) consecutively Monday through Sunday; days strictly
after today are empty, and today's summary carries exactly the live entry
list. -/
theorem weeklyHistory_week_structure (today : Int) (entries : List FoodEntry)
    (goals : UserGoals) (vf : Nat → Rat) :
    (weeklyHistory today entries goals vf).length = 7 ∧
    distanceToMonday today = (if getDay today = 0 then 6 else getDay today - 1) ∧
    (∀ i : Nat, i < 7 →
      ((weeklyHistory today entries goals vf).getD i default).date
          = (today - distanceToMonday today) + i ∧
      ((weeklyHistory today entries goals vf).getD i default).dayName
          = dayNames.getD i "") ∧
    (∀ dl ∈ weeklyHistory today entries goals vf, today < dl.date →
      dl.entries = []) ∧
    ((weeklyHistory today entries goals vf).getD
        (distanceToMonday today).toNat default).entries = entries := by
  obtain ⟨hd0, hd7⟩ := distanceToMonday_bounds today
  refine ⟨by simp [weeklyHistory], rfl, ?_, ?_, ?_⟩
  · intro i hi
    rw [weeklyHistory_getD today entries goals vf i hi]
    simp only [weeklyDay]
    split_ifs <;> exact ⟨rfl, rfl⟩
  · intro dl hmem hfut
    obtain ⟨i, hir, rfl⟩ := List.mem_map.mp hmem
    simp only [weeklyDay] at hfut ⊢
    split_ifs at hfut ⊢ with h1 h2
    · rfl
    · dsimp only at hfut
      omega
    · dsimp only at hfut
      omega
  · have hlt : (distanceToMonday today).toNat < 7 := by omega
    rw [weeklyHistory_getD today entries goals vf _ hlt]
    simp only [weeklyDay]
    have hcast : ((distanceToMonday today).toNat : Int) = distanceToMonday today :=
      Int.toNat_of_nonneg hd0
    rw [hcast]
    have hself : today - distanceToMonday today + distanceToMonday today = today := by
      ring
    rw [hself]
    rw [if_neg (lt_irrefl today), if_pos rfl]

/-- Witness for C6: for today = day 6 (a Wednesday), the week has 7 days,
the third day (index 2) carries the live entries, and the fourth day
(Thursday, day 7) is in the future and empty. -/
theorem weeklyHistory_week_structure_witness :
    (weeklyHistory 6 [sampleEntry "live" MealType.Breakfast 300 20 30 10]
        ⟨GoalType.Recomposition, 2200, 180, 200, 70, false, 0, 0, 0, 0, 0⟩
        (fun _ => 0)).length = 7 ∧
    ((weeklyHistory 6 [sampleEntry "live" MealType.Breakfast 300 20 30 10]
        ⟨GoalType.Recomposition, 2200, 180, 200, 70, false, 0, 0, 0, 0, 0⟩
        (fun _ => 0)).getD 2 default).entries
      = [sampleEntry "live" MealType.Breakfast 300 20 30 10] ∧
    ((weeklyHistory 6 [sampleEntry "live" MealType.Breakfast 300 20 30 10]
        ⟨GoalType.Recomposition, 2200, 180, 200, 70, false, 0, 0, 0, 0, 0⟩
        (fun _ => 0)).getD 3 default).date = 7 ∧
    ((weeklyHistory 6 [sampleEntry "live" MealType.Breakfast 300 20 30 10]
        ⟨GoalType.Recomposition, 2200, 180, 200, 70, false, 0, 0, 0, 0, 0⟩
        (fun _ => 0)).getD 3 default).entries = [] := by
  have hw := weeklyHistory_week_structure 6
    [sampleEntry "live" MealType.Breakfast 300 20 30 10]
    ⟨GoalType.Recomposition, 2200, 180, 200, 70, false, 0, 0, 0, 0, 0⟩
    (fun _ => 0)
  have hdm : distanceToMonday 6 = 2 := by decide
  have hdate : ((weeklyHistory 6 [sampleEntry "live" MealType.Breakfast 300 20 30 10]
      ⟨GoalType.Recomposition, 2200, 180, 200, 70, false, 0, 0, 0, 0, 0⟩
      (fun _ => 0)).getD 3 default).date = 7 := by
    have h3 := (hw.2.2.1 3 (by norm_num)).1
    rw [h3, hdm]
    norm_num
  refine ⟨hw.1, ?_, hdate, ?_⟩
  · have h2 := hw.2.2.2.2
    rw [hdm] at h2
    simpa using h2
  · refine hw.2.2.2.1 _ ?_ (by rw [hdate]; norm_num)
    rw [weeklyHistory_getD 6 _ _ _ 3 (by norm_num)]
    exact List.mem_map.mpr ⟨3, by simp, rfl⟩

/-- C7 counterexample: with goal calories 3 and the admissible constant
variance draw −1/5, the Monday of the week of day 6 is a past day whose
single synthetic entry has 2 kcal, which is strictly below 80% of the goal
(12/5): the rounded calories are NOT always within ±20% of the goal. -/
theorem weeklyHistory_mock_outside_20pct :
    (-(1/5) : Rat) ≤ 1/5 ∧
    ((weeklyHistory 6 []
        ⟨GoalType.Recomposition, 3, 180, 200, 70, false, 0, 0, 0, 0, 0⟩
        (fun _ => -(1/5))).getD 0 default).date < 6 ∧
    ((weeklyHistory 6 []
        ⟨GoalType.Recomposition, 3, 180, 200, 70, false, 0, 0, 0, 0, 0⟩
        (fun _ => -(1/5))).getD 0 default).entries.map FoodEntry.calories = [2] ∧
    ¬ ((3 : Rat) - 3 * (1/5) ≤ 2) := by
  have hfl : jsRound ((12 : Rat) / 5) = 2 := by
    rw [jsRound_eq_intFloor]
    have harith : (12 : Rat) / 5 + 1/2 = 29/10 := by norm_num
    rw [harith]
    exact Int.floor_eq_iff.mpr (by norm_num)
  refine ⟨by norm_num, ?_, ?_, by norm_num⟩
  · rw [weeklyHistory_getD 6 _ _ _ 0 (by norm_num)]
    simp only [weeklyDay, show distanceToMonday 6 = 2 by decide]
    norm_num
  · rw [weeklyHistory_getD 6 _ _ _ 0 (by norm_num)]
    simp only [weeklyDay, show distanceToMonday 6 = 2 by decide, mockEntry]
    norm_num [hfl]

/-- Rounded calories drawn with a variance in [−1/5, 1/5] stay within ±20%
of the goal up to the half-unit rounding slack. -/
theorem jsRound_variance_bound (g v : Rat) (hg : 0 ≤ g)
    (h1 : -(1/5) ≤ v) (h2 : v ≤ 1/5) :
    |(jsRound (g * (1 + v)) : Rat) - g| ≤ g / 5 + 1/2 := by
  rw [jsRound_eq_intFloor]
  have hle : ((⌊g * (1 + v) + 1/2⌋ : Int) : Rat) ≤ g * (1 + v) + 1/2 :=
    Int.floor_le _
  have hgt : g * (1 + v) + 1/2 - 1 < ((⌊g * (1 + v) + 1/2⌋ : Int) : Rat) :=
    Int.sub_one_lt_floor _
  have hx : g * (1 + v) = g + g * v := by ring
  have hub : g * v ≤ g / 5 := by
    have h := mul_le_mul_of_nonneg_left h2 hg
    linarith
  have hlb : -(g / 5) ≤ g * v := by
    have h := mul_le_mul_of_nonneg_left h1 hg
    linarith
  rw [abs_le]
  constructor <;> linarith

/-- C7 amended: every past day of the built week holds exactly one synthetic
entry whose calories are round(goals.calories * (1 + v)) for a variance v in
[−1/5, 1/5], with protein/carbs/fat split by the 30/40/30 ratios over
4/4/9 kcal per gram, fixed micros fiber 20, salt 2000, potassium 3000, the
Snack slot, and no tags or flags; the calories lie within ±20% of the goal
up to the half-unit rounding slack. -/
theorem weeklyHistory_pastday_mock (today : Int) (entries : List FoodEntry)
    (goals : UserGoals) (vf : Nat → Rat)
    (hv : ∀ i : Nat, -(1/5) ≤ vf i ∧ vf i ≤ 1/5) (hg : 0 ≤ goals.calories) :
    ∀ i : Nat, i < 7 →
      ((weeklyHistory today entries goals vf).getD i default).date < today →
      ∃ e : FoodEntry,
        ((weeklyHistory today entries goals vf).getD i default).entries = [e] ∧
        ∃ v : Rat, -(1/5) ≤ v ∧ v ≤ 1/5 ∧
          e.calories = (jsRound (goals.calories * (1 + v)) : Rat) ∧
          e.protein = (jsRound (e.calories * (3/10) / 4) : Rat) ∧
          e.carbs = (jsRound (e.calories * (4/10) / 4) : Rat) ∧
          e.fat = (jsRound (e.calories * (3/10) / 9) : Rat) ∧
          e.fiber = 20 ∧ e.salt = 2000 ∧ e.potassium = 3000 ∧
          e.mealType = MealType.Snack ∧ e.tags = [] ∧ e.inflammationFlags = [] ∧
          |e.calories - goals.calories| ≤ goals.calories / 5 + 1/2 := by
  intro i hi hpast
  rw [weeklyHistory_getD today entries goals vf i hi] at hpast ⊢
  simp only [weeklyDay] at hpast ⊢
  split_ifs at hpast ⊢ with h1 h2
  · dsimp only at hpast
    omega
  · dsimp only at hpast
    omega
  · refine ⟨mockEntry goals (vf i) i
      (today - distanceToMonday today + (i : Int)), rfl,
      vf i, (hv i).1, (hv i).2, rfl, ?_, ?_, ?_, rfl, rfl, rfl, rfl, rfl, rfl, ?_⟩
    · rfl
    · rfl
    · rfl
    · exact jsRound_variance_bound goals.calories (vf i) hg (hv i).1 (hv i).2

/-- Witness for C7 at a concrete week: day 6 with goal calories 2200 and a
constant variance draw 1/10. -/
theorem weeklyHistory_pastday_mock_witness :
    ∃ e : FoodEntry,
      ((weeklyHistory 6 []
          ⟨GoalType.Recomposition, 2200, 180, 200, 70, false, 0, 3000, 30, 2300, 3500⟩
          (fun _ => 1/10)).getD 0 default).entries = [e] ∧
      ∃ v : Rat, -(1/5) ≤ v ∧ v ≤ 1/5 ∧
        e.calories = (jsRound ((2200 : Rat) * (1 + v)) : Rat) ∧
        e.protein = (jsRound (e.calories * (3/10) / 4) : Rat) ∧
        e.carbs = (jsRound (e.calories * (4/10) / 4) : Rat) ∧
        e.fat = (jsRound (e.calories * (3/10) / 9) : Rat) ∧
        e.fiber = 20 ∧ e.salt = 2000 ∧ e.potassium = 3000 ∧
        e.mealType = MealType.Snack ∧ e.tags = [] ∧ e.inflammationFlags = [] ∧
        |e.calories - 2200| ≤ (2200 : Rat) / 5 + 1/2 := by
  have h := weeklyHistory_pastday_mock 6 []
    ⟨GoalType.Recomposition, 2200, 180, 200, 70, false, 0, 3000, 30, 2300, 3500⟩
    (fun _ => 1/10)
    (by intro i; constructor <;> norm_num) (by norm_num) 0 (by norm_num) ?_
  · exact h
  · rw [weeklyHistory_getD 6 _ _ _ 0 (by norm_num)]
    simp only [weeklyDay, show distanceToMonday 6 = 2 by decide]
    norm_num

/-- The functional update of `handleSaveEntry` in App.tsx: replace every
element with the entry's id, or append the entry when no element has it. -/
def saveEntry (prev : List FoodEntry) (entry : FoodEntry) : List FoodEntry :=
  if prev.any fun e => e.id == entry.id then
    prev.map fun e => if e.id == entry.id then entry else e
  else prev ++ [entry]

/-- C10: on a list with pairwise-distinct ids, saving is an upsert: when the
id is present the matching position is replaced by the new entry and every
other position is untouched (same length); when absent, the entry is
appended; in both cases the ids stay pairwise distinct. -/
theorem saveEntry_upsert (prev : List FoodEntry) (entry : FoodEntry)
    (hnodup : (prev.map FoodEntry.id).Nodup) :
    ((∃ e ∈ prev, e.id = entry.id) →
      (saveEntry prev entry).length = prev.length ∧
      (∀ (i : Nat) (e0 : FoodEntry), prev[i]? = some e0 →
        (e0.id = entry.id → (saveEntry prev entry)[i]? = some entry) ∧
        (e0.id ≠ entry.id → (saveEntry prev entry)[i]? = some e0))) ∧
    ((¬ ∃ e ∈ prev, e.id = entry.id) →
      saveEntry prev entry = prev ++ [entry]) ∧
    ((saveEntry prev entry).map FoodEntry.id).Nodup := by
  by_cases hex : ∃ e ∈ prev, e.id = entry.id
  · have hany : (prev.any fun e => e.id == entry.id) = true := by
      rw [List.any_eq_true]
      obtain ⟨e, he, hid⟩ := hex
      exact ⟨e, he, by simpa using hid⟩
    have hsave : saveEntry prev entry
        = prev.map fun e => if e.id == entry.id then entry else e := by
      rw [saveEntry, if_pos hany]
    refine ⟨fun _ => ⟨by rw [hsave, List.length_map], ?_⟩, fun h => absurd hex h, ?_⟩
    · intro i e0 hi
      constructor <;> intro hid <;>
        rw [hsave, List.getElem?_map, hi]
      · simp [hid]
      · simp [hid]
    · rw [hsave, List.map_map]
      have hproj : (prev.map (FoodEntry.id ∘ fun e =>
          if e.id == entry.id then entry else e)) = prev.map FoodEntry.id := by
        refine List.map_congr_left fun e _ => ?_
        by_cases h : e.id = entry.id
        · simp [Function.comp, h]
        · simp [Function.comp, h]
      rw [hproj]
      exact hnodup
  · have hany : (prev.any fun e => e.id == entry.id) = false := by
      rw [List.any_eq_false]
      intro e he
      simp only [beq_iff_eq]
      exact fun hid => hex ⟨e, he, hid⟩
    have hsave : saveEntry prev entry = prev ++ [entry] := by
      rw [saveEntry, hany]
      simp
    refine ⟨fun h => absurd h hex, fun _ => hsave, ?_⟩
    rw [hsave, List.map_append]
    rw [List.nodup_append]
    refine ⟨hnodup, by simp, ?_⟩
    intro x hx
    simp only [List.map_cons, List.map_nil, List.mem_singleton]
    obtain ⟨e, he, rfl⟩ := List.mem_map.mp hx
    exact fun heq => hex ⟨e, he, heq⟩

/-- Witness for C10: saving an entry with the existing id "b" into a
two-entry list replaces position 1, keeps position 0, preserves the length
and keeps the ids distinct. -/
theorem saveEntry_upsert_witness :
    (saveEntry [sampleEntry "a" MealType.Breakfast 1 1 1 1,
        sampleEntry "b" MealType.Lunch 2 2 2 2]
      (sampleEntry "b" MealType.Dinner 9 9 9 9)).length = 2 ∧
    (saveEntry [sampleEntry "a" MealType.Breakfast 1 1 1 1,
        sampleEntry "b" MealType.Lunch 2 2 2 2]
      (sampleEntry "b" MealType.Dinner 9 9 9 9))[1]?
      = some (sampleEntry "b" MealType.Dinner 9 9 9 9) ∧
    (saveEntry [sampleEntry "a" MealType.Breakfast 1 1 1 1,
        sampleEntry "b" MealType.Lunch 2 2 2 2]
      (sampleEntry "b" MealType.Dinner 9 9 9 9))[0]?
      = some (sampleEntry "a" MealType.Breakfast 1 1 1 1) ∧
    ((saveEntry [sampleEntry "a" MealType.Breakfast 1 1 1 1,
        sampleEntry "b" MealType.Lunch 2 2 2 2]
      (sampleEntry "b" MealType.Dinner 9 9 9 9)).map FoodEntry.id).Nodup := by
  have h := saveEntry_upsert
    [sampleEntry "a" MealType.Breakfast 1 1 1 1,
      sampleEntry "b" MealType.Lunch 2 2 2 2]
    (sampleEntry "b" MealType.Dinner 9 9 9 9) (by decide)
  have hup := h.1 ⟨sampleEntry "b" MealType.Lunch 2 2 2 2, by simp, rfl⟩
  refine ⟨by simpa using hup.1, ?_, ?_, h.2.2⟩
  · exact (hup.2 1 (sampleEntry "b" MealType.Lunch 2 2 2 2) rfl).1 rfl
  · exact (hup.2 0 (sampleEntry "a" MealType.Breakfast 1 1 1 1) rfl).2 (by decide)
